import Mathlib

/-!
# AgentDbg — shallow embedding and verification

A shallow embedding of the parts of the AgentDbg repository that the
verified properties talk about:

* `src/agentdbg/integrations/crewai.py` — the CrewAI before/after hook
  handlers and the run-exit flush (the call-correlation engine);
* `src/agentdbg/config.py` — configuration loading with defaults, YAML
  files and environment overrides;
* `src/agentdbg/server.py` — the read-side HTTP handlers' status-code
  mapping (the `agentdbg.storage` module itself is not part of the
  sources at hand, so its contract is modelled from the spec where
  needed).

Python `dict`s are modelled as insertion-ordered association lists
(`List (κ × ν)`) with unique keys, matching CPython semantics:
assignment to an existing key updates in place and keeps its position,
assignment to a new key appends at the end, `pop` removes the entry.
-/

set_option autoImplicit false
set_option linter.unusedSectionVars false

namespace AgentDbg

/-! ## Insertion-ordered dictionaries as association lists -/

section Dict

variable {κ : Type} {ν : Type} [DecidableEq κ]

/-- `d.get(k)` / `d.get(k, default=None)`: first entry with key `k`. -/
def dictGet (l : List (κ × ν)) (k : κ) : Option ν :=
  (l.find? (fun p => p.1 = k)).map Prod.snd

/-- `d.get(k, dflt)`. -/
def dictGetD (l : List (κ × ν)) (k : κ) (dflt : ν) : ν :=
  (dictGet l k).getD dflt

/-- `d[k] = v`: replace in place if the key is present, else append. -/
def dictSet (l : List (κ × ν)) (k : κ) (v : ν) : List (κ × ν) :=
  match l with
  | [] => [(k, v)]
  | (k', v') :: t => if k' = k then (k, v) :: t else (k', v') :: dictSet t k v

/-- `k in d`. -/
def dictContains (l : List (κ × ν)) (k : κ) : Bool :=
  l.any (fun p => p.1 = k)

/-- `d.pop(k, None)`: value removed (if any) and the remaining dict. -/
def dictPop (l : List (κ × ν)) (k : κ) : Option ν × List (κ × ν) :=
  match l with
  | [] => (none, [])
  | (k', v') :: t =>
    if k' = k then (some v', t)
    else
      let r := dictPop t k
      (r.1, (k', v') :: r.2)

/-- `{k: v for k, v in d.items() if p k}` / deleting all keys failing `p`. -/
def dictFilterKeys (l : List (κ × ν)) (p : κ → Bool) : List (κ × ν) :=
  l.filter (fun q => p q.1)

/-- Python `min(xs, key=f)`: first element attaining the minimum;
    `none` on an empty list. -/
def pyMinBy (f : κ → Nat) : List κ → Option κ
  | [] => none
  | x :: xs => some (xs.foldl (fun acc y => if f y < f acc then y else acc) x)

end Dict

/-! ## CrewAI integration (`src/agentdbg/integrations/crewai.py`)

Module-level correlator state and the four hook handlers plus the
run-exit flush.  Payload values that Python treats as opaque `Any`
(message lists, tool inputs, responses) are embedded as `Option String`:
`none` is Python `None`, `some s` an arbitrary non-`None` value.  Time
(`time.perf_counter()`) is threaded explicitly as an integer number of
milliseconds, so `max(0, int((t_after - t_before) * 1000))` becomes
`max 0 (t - start_ts)`. -/

abbrev RunId := String

/-- LLM stack/counter key base: `(run_id, executor_id, iterations)`. -/
abbrev LLMKeyBase := RunId × Nat × Nat

/-- Pending-LLM key: `(executor_id, iterations, seq)`. -/
abbrev LLMKey := Nat × Nat × Nat

/-- Pending-tool key: `(tool_name, seq)`. -/
abbrev ToolKey := String × Nat

/-- Duck-typed `context.llm` object as probed by `_model_from_llm`:
either `None`, an object with a `model_name` attribute, one with a
`model` attribute, or any other object with its `str()` form and
truthiness. The attribute values are carried already `str()`-converted. -/
inductive LLMObj
  | pyNone
  | withModelName (name : String)
  | withModel (model : String)
  | otherObj (s : String) (truthy : Bool)
deriving DecidableEq, Repr

/-- `_model_from_llm`: best-effort model string from `context.llm`. -/
def modelFromLLM : LLMObj → String
  | .pyNone => "unknown"
  | .withModelName n => n
  | .withModel m => m
  | .otherObj s truthy => if truthy then s.take 200 else "unknown"

/-- The fields of a CrewAI LLM-hook `context` that the handlers read.
`executor = none` covers both a missing attribute and `None` (both make
`getattr(context, "executor", None) is not None` false); likewise
`iterations = none` models a missing `iterations` attribute
(`getattr(context, "iterations", 0)` then yields `0`). -/
structure LLMCtx where
  executor : Option Nat := none
  iterations : Option Nat := none
  messages : Option String := none
  llm : LLMObj := .pyNone
  response : Option String := none
  agentRole : Option String := none
  taskDesc : Option String := none
  crew : Option Nat := none
deriving DecidableEq, Repr

/-- The fields of a CrewAI tool-hook `context` that the handlers read.
`tool_name = none` covers a missing attribute and the falsy values
(`None`, `""`) — all of which `getattr(..., "unknown") or "unknown"`
maps to `"unknown"`; a non-falsy name is `some s` with `s ≠ ""`. -/
structure ToolCtx where
  tool_name : Option String := none
  tool_input : Option String := none
  tool_result : Option String := none
  agentRole : Option String := none
  taskDesc : Option String := none
deriving DecidableEq, Repr

/-- `getattr(context, "tool_name", "unknown") or "unknown"`. -/
def toolNameOf (c : ToolCtx) : String :=
  match c.tool_name with
  | none => "unknown"
  | some s => if s = "" then "unknown" else s

/-- The `meta["crewai"]` sub-dict: keys it may carry. -/
structure CrewaiMeta where
  executor_id : Option Nat := none
  iterations : Option Nat := none
  crew_id : Option Nat := none
  completion : Option String := none
  duration_ms : Option Int := none
deriving DecidableEq, Repr

/-- The `meta` dict built by `_crewai_meta_llm` / `_crewai_meta_tool`
and enriched by the after-hooks and the flush. -/
structure Meta where
  framework : String := "crewai"
  crewai : Option CrewaiMeta := none
  agent_role : Option String := none
  task_desc : Option String := none
deriving DecidableEq, Repr

/-- `_crewai_meta_llm`: build `meta` for LLM_CALL from the context. -/
def crewaiMetaLLM (c : LLMCtx) : Meta :=
  let m0 : Meta := { framework := "crewai" }
  let m1 := match c.executor with
    | some e => { m0 with crewai := some { (m0.crewai.getD {}) with executor_id := some e } }
    | none => m0
  let m2 := match c.iterations with
    | some it => { m1 with crewai := some { (m1.crewai.getD {}) with iterations := some it } }
    | none => m1
  let m3 := { m2 with agent_role := c.agentRole }
  let m4 := { m3 with task_desc := c.taskDesc }
  match c.crew with
  | some cid => { m4 with crewai := some { (m4.crewai.getD {}) with crew_id := some cid } }
  | none => m4

/-- `_crewai_meta_tool`: build `meta` for TOOL_CALL from the context. -/
def crewaiMetaTool (c : ToolCtx) : Meta :=
  { framework := "crewai", agent_role := c.agentRole, task_desc := c.taskDesc }

/-- `_snapshot_messages`: the Python function copies mutable message
structures defensively; on the opaque scalar payloads of this embedding
the copy is content-preserving, and `None` maps to `None`. -/
def snapshotMessages (messages : Option String) : Option String := messages

/-- `_snapshot_tool_input`: defensive copy; content-preserving here. -/
def snapshotToolInput (tool_input : Option String) : Option String := tool_input

/-- Entry stored in `_pending_llm` by `_before_llm_call`. -/
structure LLMEntry where
  start_ts : Int
  messages : Option String
  model : String
  meta : Meta
deriving DecidableEq, Repr

/-- Entry stored in `_pending_tool` by `_before_tool_call`. -/
structure ToolEntry where
  start_ts : Int
  tool_input : Option String
  meta : Meta
deriving DecidableEq, Repr

/-- The `error=` payload passed to the recorders. -/
structure ErrorPayload where
  error_type : String
  message : String
  stack : Option String
deriving DecidableEq, Repr

/-- A call to `record_llm_call` / `record_tool_call` with the arguments
the hooks pass (the recorders live outside the correlator; an emitted
event is identified with the argument tuple of the call). -/
inductive Event
  | llmCall (model : String) (prompt : Option String) (response : Option String)
      (usage : Option String) (meta : Meta) (provider : String)
      (status : String) (error : Option ErrorPayload)
  | toolCall (name : String) (args : Option String) (result : Option String)
      (meta : Meta) (status : String) (error : Option ErrorPayload)
deriving DecidableEq, Repr

/-- The module-level correlator dictionaries of `crewai.py`. -/
structure CorrState where
  pending_llm : List (RunId × List (LLMKey × LLMEntry)) := []
  llm_stack : List (LLMKeyBase × List LLMKey) := []
  llm_next_seq : List (LLMKeyBase × Nat) := []
  pending_tool : List (RunId × List (ToolKey × ToolEntry)) := []
  tool_next_seq : List ((RunId × String) × Nat) := []
deriving DecidableEq, Repr

/-- Fresh correlator state (all module dicts empty). -/
def CorrState.init : CorrState := {}

/-- `_before_llm_call`: record a pending LLM call and push its key onto
the per-`(run, executor, iterations)` stack. `run` is the result of
`_get_active_run_id()`; `none` makes the handler a no-op. -/
def before_llm_call (run : Option RunId) (t : Int) (c : LLMCtx) (s : CorrState) :
    CorrState × List Event :=
  match run with
  | none => (s, [])
  | some run_id =>
    let executor_id := c.executor.getD 0
    let iterations := c.iterations.getD 0
    let key_base : LLMKeyBase := (run_id, executor_id, iterations)
    let seq := dictGetD s.llm_next_seq key_base 0
    let llm_next_seq := dictSet s.llm_next_seq key_base (seq + 1)
    let key : LLMKey := (executor_id, iterations, seq)
    let entry : LLMEntry :=
      { start_ts := t
        messages := snapshotMessages c.messages
        model := modelFromLLM c.llm
        meta := crewaiMetaLLM c }
    let by_run := dictGetD s.pending_llm run_id []
    let pending_llm := dictSet s.pending_llm run_id (dictSet by_run key entry)
    let stack := dictGetD s.llm_stack key_base []
    let llm_stack := dictSet s.llm_stack key_base (stack ++ [key])
    ({ s with pending_llm := pending_llm
              llm_next_seq := llm_next_seq
              llm_stack := llm_stack }, [])

/-- `_after_llm_call`: pop the top of the per-key stack and emit a
completed event for the popped pending entry.  An empty (or absent)
stack returns immediately with no mutation; `stack.pop()` itself
mutates the stored list even when no pending entry is found afterwards,
and `.pop(key, None)` on the per-run pending dict only mutates a dict
that is actually present. -/
def after_llm_call (run : Option RunId) (t : Int) (c : LLMCtx) (s : CorrState) :
    CorrState × List Event :=
  match run with
  | none => (s, [])
  | some run_id =>
    let executor_id := c.executor.getD 0
    let iterations := c.iterations.getD 0
    let key_base : LLMKeyBase := (run_id, executor_id, iterations)
    let stack := dictGetD s.llm_stack key_base []
    match stack.getLast? with
    | none => (s, [])
    | some key =>
      let stack' := stack.dropLast
      let by_run := dictGetD s.pending_llm run_id []
      let poppedPair := dictPop by_run key
      let pending_llm :=
        if dictContains s.pending_llm run_id
        then dictSet s.pending_llm run_id poppedPair.2
        else s.pending_llm
      let s' := { s with llm_stack := dictSet s.llm_stack key_base stack'
                         pending_llm := pending_llm }
      match poppedPair.1 with
      | none => (s', [])
      | some pending =>
        let duration_ms := max 0 (t - pending.start_ts)
        let meta := { pending.meta with
          crewai := some { (pending.meta.crewai.getD {}) with duration_ms := some duration_ms } }
        (s', [Event.llmCall pending.model pending.messages c.response none meta
              "unknown" "ok" none])

/-- `_before_tool_call`: record a pending tool call keyed by
`(tool_name, seq)` with a per-`(run, tool_name)` sequence counter. -/
def before_tool_call (run : Option RunId) (t : Int) (c : ToolCtx) (s : CorrState) :
    CorrState × List Event :=
  match run with
  | none => (s, [])
  | some run_id =>
    let tool_name := toolNameOf c
    let key_base : RunId × String := (run_id, tool_name)
    let seq := dictGetD s.tool_next_seq key_base 0
    let tool_next_seq := dictSet s.tool_next_seq key_base (seq + 1)
    let key : ToolKey := (tool_name, seq)
    let entry : ToolEntry :=
      { start_ts := t
        tool_input := snapshotToolInput c.tool_input
        meta := crewaiMetaTool c }
    let by_run := dictGetD s.pending_tool run_id []
    let pending_tool := dictSet s.pending_tool run_id (dictSet by_run key entry)
    ({ s with pending_tool := pending_tool
              tool_next_seq := tool_next_seq }, [])

/-- `_after_tool_call`: FIFO match — among the pending keys for this run
whose tool name equals the context's, pop the one with the smallest
sequence number (Python `min(candidates, key=lambda k: k[1])`) and emit
a completed event. No candidates: return with no mutation. -/
def after_tool_call (run : Option RunId) (t : Int) (c : ToolCtx) (s : CorrState) :
    CorrState × List Event :=
  match run with
  | none => (s, [])
  | some run_id =>
    let tool_name := toolNameOf c
    let by_run := dictGetD s.pending_tool run_id []
    let candidates := (by_run.map Prod.fst).filter (fun k => k.1 = tool_name)
    match pyMinBy Prod.snd candidates with
    | none => (s, [])
    | some matching_key =>
      let poppedPair := dictPop by_run matching_key
      match poppedPair.1 with
      | none => (s, [])
      | some pending =>
        let pending_tool := dictSet s.pending_tool run_id poppedPair.2
        let duration_ms := max 0 (t - pending.start_ts)
        let meta := { pending.meta with
          crewai := some { (pending.meta.crewai.getD {}) with duration_ms := some duration_ms } }
        ({ s with pending_tool := pending_tool },
         [Event.toolCall tool_name pending.tool_input c.tool_result meta "ok" none])

/-- Modelled from the spec: Python stdlib
`"".join(traceback.format_exception(exc_type, exc_value, tb))` — the
formatted traceback of the exception, ending in the `Type: message`
line. The stdlib function is outside the repository; any injective
formatting is adequate for the properties below. -/
def formatException (ty msg tbs : String) : String :=
  tbs ++ ty ++ ": " ++ msg ++ "\n"

/-- `_flush_pending_for_run`: emit one synthetic error event per pending
LLM entry (in dict order), then one per pending tool entry, then drop
every correlator entry keyed by this run. `excType` carries
`exc_type.__name__`, `excValue` carries `str(exc_value)`, `tb` the
traceback (formatted on use); all three must be present for the real
exception payload to be attached. -/
def flush_pending_for_run (run_id : RunId) (excType excValue tb : Option String)
    (t : Int) (s : CorrState) : CorrState × List Event :=
  let incomplete_error : ErrorPayload :=
    match excType, excValue, tb with
    | some ty, some v, some tbs =>
      { error_type := ty, message := v, stack := some (formatException ty v tbs) }
    | _, _, _ =>
      { error_type := "IncompleteCall", message := "Missing after_hook", stack := none }
  let llmEvents := (dictGetD s.pending_llm run_id []).map (fun kv =>
    let entry := kv.2
    let duration_ms := max 0 (t - entry.start_ts)
    let crewai_meta := { (entry.meta.crewai.getD {}) with
        completion := some "missing_after_hook", duration_ms := some duration_ms }
    let meta := { entry.meta with crewai := some crewai_meta }
    Event.llmCall entry.model entry.messages none none meta "unknown" "error"
      (some incomplete_error))
  let toolEvents := (dictGetD s.pending_tool run_id []).map (fun kv =>
    let entry := kv.2
    let duration_ms := max 0 (t - entry.start_ts)
    let crewai_meta := { (entry.meta.crewai.getD {}) with
        completion := some "missing_after_hook", duration_ms := some duration_ms }
    let meta := { entry.meta with crewai := some crewai_meta }
    Event.toolCall kv.1.1 entry.tool_input none meta "error"
      (some incomplete_error))
  let s' : CorrState :=
    { pending_llm := (dictPop s.pending_llm run_id).2
      pending_tool := (dictPop s.pending_tool run_id).2
      llm_stack := dictFilterKeys s.llm_stack (fun k => k.1 ≠ run_id)
      llm_next_seq := dictFilterKeys s.llm_next_seq (fun k => k.1 ≠ run_id)
      tool_next_seq := dictFilterKeys s.tool_next_seq (fun k => k.1 ≠ run_id) }
  (s', llmEvents ++ toolEvents)

/-- `_on_run_exit`: flush pending calls for this run (the surrounding
`try/except` never fires in this embedding: the flush is total). -/
def on_run_exit (run_id : RunId) (excType excValue tb : Option String)
    (t : Int) (s : CorrState) : CorrState × List Event :=
  flush_pending_for_run run_id excType excValue tb t s

/-! ### Signals and accessors -/

/-- One hook invocation delivered by the host framework. -/
inductive Sig
  | beforeLLM (c : LLMCtx)
  | afterLLM (c : LLMCtx)
  | beforeTool (c : ToolCtx)
  | afterTool (c : ToolCtx)
deriving Repr

/-- Dispatch one signal to its handler. -/
def step (run : Option RunId) (t : Int) (s : CorrState) : Sig → CorrState × List Event
  | .beforeLLM c => before_llm_call run t c s
  | .afterLLM c => after_llm_call run t c s
  | .beforeTool c => before_tool_call run t c s
  | .afterTool c => after_tool_call run t c s

/-- Run a timed sequence of signals, accumulating recorded events. -/
def runSignals (run : Option RunId) (s : CorrState) :
    List (Int × Sig) → CorrState × List Event
  | [] => (s, [])
  | (t, sig) :: rest =>
    let r := step run t s sig
    let r' := runSignals run r.1 rest
    (r'.1, r.2 ++ r'.2)

/-- The `status=` argument of the recorded call. -/
def Event.statusOf : Event → String
  | .llmCall _ _ _ _ _ _ st _ => st
  | .toolCall _ _ _ _ st _ => st

/-- The `meta=` argument of the recorded call. -/
def Event.metaOf : Event → Meta
  | .llmCall _ _ _ _ m _ _ _ => m
  | .toolCall _ _ _ m _ _ => m

/-- The `error=` argument of the recorded call. -/
def Event.errorOf : Event → Option ErrorPayload
  | .llmCall _ _ _ _ _ _ _ e => e
  | .toolCall _ _ _ _ _ e => e

/-- The `prompt=` argument of a recorded LLM call. -/
def Event.promptOf : Event → Option String
  | .llmCall _ p _ _ _ _ _ _ => p
  | .toolCall _ _ _ _ _ _ => none

/-- The `response=` argument of a recorded LLM call. -/
def Event.responseOf : Event → Option String
  | .llmCall _ _ r _ _ _ _ _ => r
  | .toolCall _ _ _ _ _ _ => none

/-- The `args=` argument of a recorded tool call. -/
def Event.argsOf : Event → Option String
  | .llmCall _ _ _ _ _ _ _ _ => none
  | .toolCall _ a _ _ _ _ => a

/-- The `meta["crewai"]["completion"]` marker of the recorded call. -/
def Event.completionOf (e : Event) : Option String :=
  e.metaOf.crewai.bind (fun cm => cm.completion)

/-- Sample correlator state with two pending `search` tool calls
(sequence numbers 0 and 1), used as a concrete witness input. -/
def sampleToolState : CorrState :=
  { pending_tool := [("r",
      [(("search", 0), { start_ts := 0, tool_input := some "x1", meta := {} }),
       (("search", 1), { start_ts := 1, tool_input := some "x2", meta := {} })])] }

/-- Sample after-tool context naming the `search` tool. -/
def sampleToolCtx : ToolCtx :=
  { tool_name := some "search", tool_result := some "res" }

/-! ## Configuration (`src/agentdbg/config.py`)

YAML parsing itself (`yaml.safe_load` plus `_load_yaml`'s fallbacks to
`{}`) is I/O; `load_config` is embedded as a function of the two parsed
config mappings (an empty mapping covering a missing/invalid/non-dict
file) and the relevant environment variables.  A parsed YAML value is a
`YVal`; Python floats are carried as their `int()` truncation toward
zero together with their truthiness. -/

/-- A YAML value as `_apply_yaml` can receive it. `yOther` stands for
any other value (mapping, date, ...): `int()` raises on it and its
truthiness is the carried flag. -/
inductive YVal
  | yNull
  | yBool (b : Bool)
  | yInt (n : Int)
  | yFloat (trunc : Int) (truthy : Bool)
  | yStr (s : String)
  | yList (elems : List YVal)
  | yOther (truthy : Bool)
deriving Repr

/-- A parsed YAML mapping (Python dict keyed by strings). -/
abbrev YDict := List (String × YVal)

/-- Python truthiness `bool(val)` of a YAML value. -/
def pyTruthy : YVal → Bool
  | .yNull => false
  | .yBool b => b
  | .yInt n => n ≠ 0
  | .yFloat _ truthy => truthy
  | .yStr s => s ≠ ""
  | .yList l => !l.isEmpty
  | .yOther truthy => truthy

/-- ASCII whitespace as `str.strip()` removes it (unicode whitespace is
not modelled). -/
def isPyWs (c : Char) : Bool :=
  c = ' ' ∨ c = '\t' ∨ c = '\n' ∨ c = '\r' ∨ c = '\x0b' ∨ c = '\x0c'

/-- Drop leading whitespace characters. -/
def dropWs : List Char → List Char
  | [] => []
  | c :: cs => if isPyWs c then dropWs cs else c :: cs

/-- Python `s.strip()`: drop whitespace from both ends. -/
def pyStrip (s : String) : String :=
  String.mk ((dropWs ((dropWs s.data).reverse)).reverse)

/-- Python `s.lower()` (ASCII). -/
def pyLower (s : String) : String :=
  String.mk (s.data.map Char.toLower)

/-- Decimal value of a digit run; `none` on a non-digit. -/
def digitsVal : List Char → Nat → Option Nat
  | [], acc => some acc
  | c :: cs, acc => if c.isDigit then digitsVal cs (acc * 10 + (c.toNat - 48)) else none

/-- Decimal value of a non-empty digit run. -/
def digitsToNat (cs : List Char) : Option Nat :=
  if cs.isEmpty then none else digitsVal cs 0

/-- Python `int(s)` on a string: optional surrounding whitespace,
optional sign, decimal digits; `none` when it raises `ValueError`.
(Underscore separators and non-ASCII digits are not modelled.) -/
def pyStrToInt (s : String) : Option Int :=
  match (pyStrip s).data with
  | '-' :: rest => (digitsToNat rest).map (fun n => -(n : Int))
  | '+' :: rest => (digitsToNat rest).map (fun n => (n : Int))
  | cs => (digitsToNat cs).map (fun n => (n : Int))

/-- Python `int(val)` on a YAML value: `none` when it raises
`TypeError`/`ValueError` (caught by `_apply_yaml`). -/
def pyInt : YVal → Option Int
  | .yNull => none
  | .yBool b => some (if b then 1 else 0)
  | .yInt n => some n
  | .yFloat trunc _ => some trunc
  | .yStr s => pyStrToInt s
  | .yList _ => none
  | .yOther _ => none

/-- `isinstance(val, list) and all(isinstance(x, str) for x in val)`
combined with `list(val)`: the strings when the value is a list of
strings only. -/
def yStrList : List YVal → Option (List String)
  | [] => some []
  | .yStr s :: rest => (yStrList rest).map (fun l => s :: l)
  | _ => none

/-- Defaults (`_DEFAULT_*` in `config.py`). -/
def DEFAULT_REDACT : Bool := true

def DEFAULT_REDACT_KEYS : List String :=
  ["api_key", "authorization", "cookie", "password", "secret", "token"]

def DEFAULT_MAX_FIELD_BYTES : Int := 20000

def DEFAULT_LOOP_WINDOW : Int := 12

def DEFAULT_LOOP_REPETITIONS : Int := 3

/-- Minima (`_MIN_*` in `config.py`). -/
def MIN_MAX_FIELD_BYTES : Int := 100

def MIN_LOOP_WINDOW : Int := 4

def MIN_LOOP_REPETITIONS : Int := 2

/-- `_apply_yaml(config, "redact", default)`:
`bool(val) if val is not None else default`. -/
def applyYamlRedact (cfg : YDict) (dflt : Bool) : Bool :=
  match dictGet cfg "redact" with
  | none => dflt
  | some .yNull => dflt
  | some v => pyTruthy v

/-- `_apply_yaml(config, "redact_keys", default)`. -/
def applyYamlRedactKeys (cfg : YDict) (dflt : List String) : List String :=
  match dictGet cfg "redact_keys" with
  | some (.yList l) => (yStrList l).getD dflt
  | _ => dflt

/-- `_apply_yaml(config, key, default)` for the three numeric keys:
`max(minV, int(val))`, or `default` when `int(val)` raises. -/
def applyYamlIntKey (cfg : YDict) (key : String) (minV : Int) (dflt : Int) : Int :=
  match dictGet cfg key with
  | none => dflt
  | some v =>
    match pyInt v with
    | some n => max minV n
    | none => dflt

/-- `_apply_yaml(config, "data_dir", default)`: `Path(val)` for a
string value, `default` for `None` or a non-string/non-`Path` value. -/
def applyYamlDataDir (cfg : YDict) (dflt : String) : String :=
  match dictGet cfg "data_dir" with
  | none => dflt
  | some .yNull => dflt
  | some (.yStr s) => s
  | some _ => dflt

/-- The `AGENTDBG_*` environment variables `load_config` reads:
`none` means the variable is not set in the environment. -/
structure Env where
  redact : Option String := none
  redact_keys : Option String := none
  max_field_bytes : Option String := none
  loop_window : Option String := none
  loop_repetitions : Option String := none
  data_dir : Option String := none
deriving DecidableEq, Repr

/-- `Path(s).expanduser()` for the leading `~` (the `~user` form is not
modelled). -/
def expandUser (home s : String) : String :=
  if s = "~" then home
  else if s.startsWith "~/" then home ++ s.drop 1
  else s

/-- The `AgentDbgConfig` dataclass. `data_dir` paths are carried as
strings. -/
structure AgentDbgConfig where
  redact : Bool
  redact_keys : List String
  max_field_bytes : Int
  loop_window : Int
  loop_repetitions : Int
  data_dir : String
deriving DecidableEq, Repr

/-- `AGENTDBG_REDACT` override: `strip().lower() in ("1","true","yes")`
when set, else the current value. -/
def envRedact (cur : Bool) : Option String → Bool
  | some s => decide (pyLower (pyStrip s) ∈ (["1", "true", "yes"] : List String))
  | none => cur

/-- `AGENTDBG_REDACT_KEYS` override: split on commas, strip each part,
drop empty parts; else the current value. -/
def envRedactKeys (cur : List String) : Option String → List String
  | some s => ((s.split (fun ch => ch = ',')).map pyStrip).filter (fun k => k ≠ "")
  | none => cur

/-- Numeric env override: `max(minV, int(s))`, keeping the current
value when `int(s)` raises `ValueError` or the variable is unset. -/
def envIntOverride (minV : Int) (cur : Int) : Option String → Int
  | some s =>
    match pyStrToInt s with
    | some n => max minV n
    | none => cur
  | none => cur

/-- `AGENTDBG_DATA_DIR` override: `Path(s.strip()).expanduser()` when
the stripped value is non-empty, else the current value. -/
def envDataDir (home : String) (cur : String) : Option String → String
  | some s => if pyStrip s ≠ "" then expandUser home (pyStrip s) else cur
  | none => cur

/-- One file stage for `redact`: `load_config` applies `_apply_yaml`
only when the parsed mapping is non-empty (`if user_cfg:` /
`if proj_cfg:`); the guard distributes over the six independent
assignments. -/
def cfgRedact (cfg : YDict) (cur : Bool) : Bool :=
  if cfg.isEmpty then cur else applyYamlRedact cfg cur

/-- One file stage for `redact_keys` (guard as in `cfgRedact`). -/
def cfgRedactKeys (cfg : YDict) (cur : List String) : List String :=
  if cfg.isEmpty then cur else applyYamlRedactKeys cfg cur

/-- One file stage for a numeric key (guard as in `cfgRedact`). -/
def cfgIntKey (cfg : YDict) (key : String) (minV : Int) (cur : Int) : Int :=
  if cfg.isEmpty then cur else applyYamlIntKey cfg key minV cur

/-- One file stage for `data_dir` (guard as in `cfgRedact`). -/
def cfgDataDir (cfg : YDict) (cur : String) : String :=
  if cfg.isEmpty then cur else applyYamlDataDir cfg cur

/-- `load_config`: defaults, then the user config (when the parsed
mapping is non-empty — `if user_cfg:`), then the project config, then
environment overrides (each applied only when the variable is set). -/
def load_config (home : String) (userCfg projCfg : YDict) (env : Env) :
    AgentDbgConfig :=
  let base := home ++ "/.agentdbg"
  { redact :=
      envRedact (cfgRedact projCfg (cfgRedact userCfg DEFAULT_REDACT)) env.redact
    redact_keys :=
      envRedactKeys (cfgRedactKeys projCfg (cfgRedactKeys userCfg DEFAULT_REDACT_KEYS))
        env.redact_keys
    max_field_bytes :=
      envIntOverride MIN_MAX_FIELD_BYTES
        (cfgIntKey projCfg "max_field_bytes" MIN_MAX_FIELD_BYTES
          (cfgIntKey userCfg "max_field_bytes" MIN_MAX_FIELD_BYTES
            DEFAULT_MAX_FIELD_BYTES))
        env.max_field_bytes
    loop_window :=
      envIntOverride MIN_LOOP_WINDOW
        (cfgIntKey projCfg "loop_window" MIN_LOOP_WINDOW
          (cfgIntKey userCfg "loop_window" MIN_LOOP_WINDOW DEFAULT_LOOP_WINDOW))
        env.loop_window
    loop_repetitions :=
      envIntOverride MIN_LOOP_REPETITIONS
        (cfgIntKey projCfg "loop_repetitions" MIN_LOOP_REPETITIONS
          (cfgIntKey userCfg "loop_repetitions" MIN_LOOP_REPETITIONS
            DEFAULT_LOOP_REPETITIONS))
        env.loop_repetitions
    data_dir :=
      envDataDir home (cfgDataDir projCfg (cfgDataDir userCfg base)) env.data_dir }

/-! ## Read-side HTTP surface (`src/agentdbg/server.py`)

The handlers call `storage.load_run_meta` / `storage.load_events`.  The
`agentdbg.storage` module itself is not among the sources at hand (only
its callers are), so its externally visible contract is modelled from
the spec: "`load_run_meta`/`load_events` signal not-found when the
identifier is well-formed but absent, and signal validation failure
when malformed." -/

/-- The storage exceptions the handlers catch: `ValueError` (malformed
`run_id`) and `FileNotFoundError` (well-formed but absent run). -/
inductive StorageExc
  | valueError
  | fileNotFound
deriving DecidableEq, Repr

/-- Modelled from the spec: the storage state the read handlers can
observe — which identifiers satisfy the strict `run_id` syntax, which
runs exist, and their (opaque) summary and event contents. -/
structure Store where
  validId : String → Bool
  hasRun : String → Bool
  runMeta : String → String
  runEvents : String → List String

/-- Modelled from the spec: `storage.load_run_meta` — validation
failure when the identifier is malformed, not-found when well-formed
but absent, else the summary record. -/
def load_run_meta (st : Store) (rid : String) : Except StorageExc String :=
  if !st.validId rid then .error .valueError
  else if !st.hasRun rid then .error .fileNotFound
  else .ok (st.runMeta rid)

/-- Modelled from the spec: `storage.load_events` — same signalling
discipline as `load_run_meta`, else the event list. -/
def load_events (st : Store) (rid : String) : Except StorageExc (List String) :=
  if !st.validId rid then .error .valueError
  else if !st.hasRun rid then .error .fileNotFound
  else .ok (st.runEvents rid)

/-- `GET /api/runs/{run_id}` (`get_run_meta` in `server.py`): the HTTP
status code of the response — `ValueError ↦ 400`,
`FileNotFoundError ↦ 404`, success `↦ 200`. -/
def get_run_meta_status (st : Store) (rid : String) : Nat :=
  match load_run_meta st rid with
  | .error .valueError => 400
  | .error .fileNotFound => 404
  | .ok _ => 200

/-- `GET /api/runs/{run_id}/events` (`get_run_events` in `server.py`):
first `load_run_meta` with `ValueError ↦ 400` and
`FileNotFoundError ↦ 404`, then `load_events` with `ValueError ↦ 400`;
a `FileNotFoundError` from `load_events` is not caught by the handler
and would surface as an internal server error (500). -/
def get_run_events_status (st : Store) (rid : String) : Nat :=
  match load_run_meta st rid with
  | .error .valueError => 400
  | .error .fileNotFound => 404
  | .ok _ =>
    match load_events st rid with
    | .error .valueError => 400
    | .error .fileNotFound => 500
    | .ok _ => 200

/-! ## Helper lemmas on the dictionary model -/

section DictLemmas

variable {κ : Type} {ν : Type} [DecidableEq κ]

theorem pyMinBy_mem (f : κ → Nat) (l : List κ) (x : κ)
    (h : pyMinBy f l = some x) : x ∈ l := by
  match l with
  | [] => simp [pyMinBy] at h
  | a :: as =>
    simp only [pyMinBy, Option.some.injEq] at h
    subst h
    induction as generalizing a with
    | nil => simp
    | cons b bs ih =>
      simp only [List.foldl_cons]
      by_cases hb : f b < f a
      · simp only [if_pos hb]
        have := ih b
        simp only [List.mem_cons] at this ⊢
        tauto
      · simp only [if_neg hb]
        have := ih a
        simp only [List.mem_cons] at this ⊢
        tauto

theorem pyMinBy_le (f : κ → Nat) (l : List κ) (x : κ)
    (h : pyMinBy f l = some x) : ∀ y ∈ l, f x ≤ f y := by
  match l with
  | [] => simp [pyMinBy] at h
  | a :: as =>
    simp only [pyMinBy, Option.some.injEq] at h
    subst h
    induction as generalizing a with
    | nil => simp
    | cons b bs ih =>
      intro y hy
      simp only [List.mem_cons] at hy
      simp only [List.foldl_cons]
      by_cases hb : f b < f a
      · simp only [if_pos hb]
        rcases hy with h1 | h2 | h3
        · exact le_of_lt (lt_of_le_of_lt (ih b b (by simp)) (h1 ▸ hb))
        · exact ih b y (by simp [h2])
        · exact ih b y (by simp [h3])
      · simp only [if_neg hb]
        rcases hy with h1 | h2 | h3
        · exact h1 ▸ ih a a (by simp)
        · exact le_trans (ih a a (by simp)) (h2 ▸ le_of_not_lt hb)
        · exact ih a y (by simp [h3])

theorem dictContains_iff_mem_keys (l : List (κ × ν)) (k : κ) :
    dictContains l k = true ↔ k ∈ l.map Prod.fst := by
  simp [dictContains, List.any_eq_true, List.mem_map]

theorem dictPop_fst_eq_dictGet (l : List (κ × ν)) (k : κ) :
    (dictPop l k).1 = dictGet l k := by
  induction l with
  | nil => simp [dictPop, dictGet]
  | cons p t ih =>
    obtain ⟨k', v'⟩ := p
    by_cases hk : k' = k
    · simp [dictPop, dictGet, List.find?, hk]
    · simp [dictPop, dictGet, List.find?, hk] at ih ⊢
      exact ih

theorem dictGet_isSome_of_mem_keys (l : List (κ × ν)) (k : κ)
    (h : k ∈ l.map Prod.fst) : ∃ v, dictGet l k = some v := by
  induction l with
  | nil => simp at h
  | cons p t ih =>
    obtain ⟨k', v'⟩ := p
    by_cases hk : k' = k
    · exact ⟨v', by simp [dictGet, List.find?, hk]⟩
    · simp only [List.map_cons, List.mem_cons] at h
      rcases h with h | h

      · exact absurd h.symm hk
      · obtain ⟨v, hv⟩ := ih h
        exact ⟨v, by simp [dictGet, List.find?, hk] at hv ⊢; exact hv⟩

theorem dictContains_dictPop_self (l : List (κ × ν)) (k : κ)
    (h : (l.map Prod.fst).Nodup) : dictContains (dictPop l k).2 k = false := by
  induction l with
  | nil => simp [dictPop, dictContains]
  | cons p t ih =>
    obtain ⟨k', v'⟩ := p
    simp only [List.map_cons, List.nodup_cons] at h
    by_cases hk : k' = k
    · simp only [dictPop, if_pos hk]
      subst hk
      rw [Bool.eq_false_iff]
      intro hc
      exact h.1 ((dictContains_iff_mem_keys t k').mp hc)
    · simp only [dictPop, if_neg hk]
      simp only [dictContains, List.any_cons] at ih ⊢
      simp only [ih h.2, Bool.or_false]
      simpa using hk

theorem dictFilterKeys_all (l : List (κ × ν)) (p : κ → Bool) :
    (dictFilterKeys l p).all (fun q => p q.1) = true := by
  simp only [dictFilterKeys, List.all_eq_true]
  intro q hq
  exact (List.mem_filter.mp hq).2

end DictLemmas

/-! ## Theorems about the correlator -/

/-- C1: LIFO pairing of LLM calls. With an active run `r`, delivering
`before(A), before(A), after(A), after(A)` for one call-site key
`A = (r, executor, iterations)` records two completed events: the first
`after` is paired with the second (most recent) `before` — its prompt is
the second context's messages and its response the first after-context's
response — and the second `after` with the first `before`. -/
theorem llm_lifo_pairing (r : RunId) (e it : Nat)
    (m1 m2 rA rB : Option String) (l1 l2 : LLMObj) (t0 t1 t2 t3 : Int) :
    ((runSignals (some r) CorrState.init
      [(t0, .beforeLLM { executor := some e, iterations := some it,
                         messages := m1, llm := l1 }),
       (t1, .beforeLLM { executor := some e, iterations := some it,
                         messages := m2, llm := l2 }),
       (t2, .afterLLM { executor := some e, iterations := some it,
                        response := rA }),
       (t3, .afterLLM { executor := some e, iterations := some it,
                        response := rB })]).2.map
      (fun ev => (ev.promptOf, ev.responseOf, ev.statusOf)))
      = [(m2, rA, "ok"), (m1, rB, "ok")] := by
  simp [runSignals, step, before_llm_call, after_llm_call, dictGetD, dictGet,
    dictSet, dictContains, dictPop, snapshotMessages, CorrState.init,
    Event.promptOf, Event.responseOf, Event.statusOf, List.find?]

/-- C10: unmatched after-signals are dropped silently. With an active
run, an after-LLM signal whose call-site key has an empty (or absent)
pending stack, and an after-tool signal whose tool name has no pending
candidate, each return without recording any event and leave the whole
correlator state (sequence counters included) unchanged. -/
theorem unmatched_after_dropped (rid : RunId) (t : Int) (cl : LLMCtx)
    (ct : ToolCtx) (s : CorrState)
    (hstack : dictGetD s.llm_stack (rid, cl.executor.getD 0, cl.iterations.getD 0) [] = [])
    (hcand : ((dictGetD s.pending_tool rid []).map Prod.fst).filter
        (fun k => k.1 = toolNameOf ct) = []) :
    after_llm_call (some rid) t cl s = (s, []) ∧
    after_tool_call (some rid) t ct s = (s, []) := by
  constructor
  · simp [after_llm_call, hstack]
  · simp [after_tool_call, hcand, pyMinBy]

/-- Witness for `unmatched_after_dropped`: the empty correlator state
with a `search` after-tool signal and an after-LLM signal. -/
theorem unmatched_after_dropped_witness :
    after_llm_call (some "r") 0 { executor := some 1, iterations := some 0 }
        CorrState.init = (CorrState.init, []) ∧
    after_tool_call (some "r") 0 { tool_name := some "search" }
        CorrState.init = (CorrState.init, []) :=
  unmatched_after_dropped "r" 0 { executor := some 1, iterations := some 0 }
    { tool_name := some "search" } CorrState.init (by decide) (by decide)

/-- C3: flush-on-exit. For every correlator state and run, the run-exit
flush records exactly one synthetic event per still-pending entry —
first the pending LLM entries in order (each event carrying that entry's
messages as prompt), then the pending tool entries in order (each event
carrying that entry's input as args) — and every flushed event has
status `"error"` and the `completion = "missing_after_hook"` marker. -/
theorem flush_exactly_one_per_pending (rid : RunId)
    (excType excValue tb : Option String) (t : Int) (s : CorrState) :
    ((flush_pending_for_run rid excType excValue tb t s).2.length
        = (dictGetD s.pending_llm rid []).length
          + (dictGetD s.pending_tool rid []).length) ∧
    ((flush_pending_for_run rid excType excValue tb t s).2.map Event.promptOf
        = (dictGetD s.pending_llm rid []).map (fun kv => kv.2.messages)
          ++ (dictGetD s.pending_tool rid []).map (fun _ => none)) ∧
    ((flush_pending_for_run rid excType excValue tb t s).2.map Event.argsOf
        = (dictGetD s.pending_llm rid []).map (fun _ => none)
          ++ (dictGetD s.pending_tool rid []).map (fun kv => kv.2.tool_input)) ∧
    (∀ ev ∈ (flush_pending_for_run rid excType excValue tb t s).2,
        ev.statusOf = "error" ∧ ev.completionOf = some "missing_after_hook") := by
  refine ⟨?_, ?_, ?_, ?_⟩
  · simp [flush_pending_for_run]
  · simp [flush_pending_for_run, Event.promptOf, Function.comp_def]
  · simp [flush_pending_for_run, Event.argsOf, Function.comp_def]
  · intro ev hev
    simp only [flush_pending_for_run, List.mem_append, List.mem_map] at hev
    rcases hev with ⟨kv, _, hkv⟩ | ⟨kv, _, hkv⟩ <;>
      simp [← hkv, Event.statusOf, Event.completionOf, Event.metaOf]

/-- Witness for `flush_exactly_one_per_pending`: a state with one
pending LLM call and one pending tool call, flushed with no exception,
yields exactly two error events with the marker. -/
theorem flush_exactly_one_per_pending_witness :
    ((flush_pending_for_run "r" none none none 7
        { pending_llm := [("r", [((1, 0, 0),
            { start_ts := 0, messages := some "m", model := "gpt", meta := {} })])]
          pending_tool := [("r", [(("search", 0),
            { start_ts := 2, tool_input := some "x", meta := {} })])] }).2.length = 2) ∧
    (∀ ev ∈ (flush_pending_for_run "r" none none none 7
        { pending_llm := [("r", [((1, 0, 0),
            { start_ts := 0, messages := some "m", model := "gpt", meta := {} })])]
          pending_tool := [("r", [(("search", 0),
            { start_ts := 2, tool_input := some "x", meta := {} })])] }).2,
        ev.statusOf = "error" ∧ ev.completionOf = some "missing_after_hook") := by
  have h := flush_exactly_one_per_pending "r" none none none 7
    { pending_llm := [("r", [((1, 0, 0),
        { start_ts := 0, messages := some "m", model := "gpt", meta := {} })])]
      pending_tool := [("r", [(("search", 0),
        { start_ts := 2, tool_input := some "x", meta := {} })])] }
  exact ⟨h.1, h.2.2.2⟩

/-- C4: exception attachment on flush. If the run ended via an exception
(type, value and traceback all present), every synthetic event the flush
records for that run carries an error payload whose `error_type` is the
exception's class name, whose `message` is its string form, and whose
`stack` is the formatted traceback. -/
theorem flush_attaches_exception (rid : RunId) (ty v tbs : String)
    (t : Int) (s : CorrState) :
    ∀ ev ∈ (flush_pending_for_run rid (some ty) (some v) (some tbs) t s).2,
      ev.errorOf = some { error_type := ty, message := v,
                          stack := some (formatException ty v tbs) } := by
  intro ev hev
  simp only [flush_pending_for_run, List.mem_append, List.mem_map] at hev
  rcases hev with ⟨kv, _, hkv⟩ | ⟨kv, _, hkv⟩ <;> simp [← hkv, Event.errorOf]

/-- Witness for `flush_attaches_exception`: a run with one pending tool
call that ends via a `RuntimeError` flushes a synthetic event with
`error.error_type = "RuntimeError"`. -/
theorem flush_attaches_exception_witness :
    Event.errorOf ((flush_pending_for_run "r" (some "RuntimeError") (some "boom")
        (some "trace") 7
        { pending_tool := [("r", [(("search", 0),
            { start_ts := 2, tool_input := some "x", meta := {} })])] }).2.get
        ⟨0, by decide⟩)
      = some { error_type := "RuntimeError", message := "boom",
               stack := some (formatException "RuntimeError" "boom" "trace") } :=
  flush_attaches_exception "r" "RuntimeError" "boom" "trace" 7
    { pending_tool := [("r", [(("search", 0),
        { start_ts := 2, tool_input := some "x", meta := {} })])] }
    _ (List.get_mem _ _ _)

/-- C5: pending-call lifetime bounded by the run. After the run-exit
handler for run `rid` completes (on a state whose per-run pending dicts
have unique keys, as Python dicts do), no correlator state keyed by
`rid` remains: `rid` is absent from the pending-LLM and pending-tool
maps, and every LLM-stack, LLM-sequence-counter and tool-sequence-
counter entry whose key's run component is `rid` has been removed. -/
theorem run_exit_clears_run_state (rid : RunId) (excType excValue tb : Option String)
    (t : Int) (s : CorrState)
    (h1 : (s.pending_llm.map Prod.fst).Nodup)
    (h2 : (s.pending_tool.map Prod.fst).Nodup) :
    dictContains (on_run_exit rid excType excValue tb t s).1.pending_llm rid = false ∧
    dictContains (on_run_exit rid excType excValue tb t s).1.pending_tool rid = false ∧
    (on_run_exit rid excType excValue tb t s).1.llm_stack.all
      (fun kv => kv.1.1 ≠ rid) = true ∧
    (on_run_exit rid excType excValue tb t s).1.llm_next_seq.all
      (fun kv => kv.1.1 ≠ rid) = true ∧
    (on_run_exit rid excType excValue tb t s).1.tool_next_seq.all
      (fun kv => kv.1.1 ≠ rid) = true := by
  refine ⟨?_, ?_, ?_, ?_, ?_⟩
  · exact dictContains_dictPop_self s.pending_llm rid h1
  · exact dictContains_dictPop_self s.pending_tool rid h2
  · exact dictFilterKeys_all s.llm_stack (fun k => k.1 ≠ rid)
  · exact dictFilterKeys_all s.llm_next_seq (fun k => k.1 ≠ rid)
  · exact dictFilterKeys_all s.tool_next_seq (fun k => k.1 ≠ rid)

/-- Witness for `run_exit_clears_run_state`: a state holding one pending
LLM call, one pending tool call, a stack entry and both counters for run
`"r"` is left with nothing keyed by `"r"` after the exit handler. -/
theorem run_exit_clears_run_state_witness :
    dictContains (on_run_exit "r" none none none 7
      { pending_llm := [("r", [((1, 0, 0),
          { start_ts := 0, messages := some "m", model := "gpt", meta := {} })])]
        llm_stack := [(("r", 1, 0), [(1, 0, 0)])]
        llm_next_seq := [(("r", 1, 0), 1)]
        pending_tool := [("r", [(("search", 0),
          { start_ts := 2, tool_input := some "x", meta := {} })])]
        tool_next_seq := [(("r", "search"), 1)] }).1.pending_llm "r" = false ∧
    dictContains (on_run_exit "r" none none none 7
      { pending_llm := [("r", [((1, 0, 0),
          { start_ts := 0, messages := some "m", model := "gpt", meta := {} })])]
        llm_stack := [(("r", 1, 0), [(1, 0, 0)])]
        llm_next_seq := [(("r", 1, 0), 1)]
        pending_tool := [("r", [(("search", 0),
          { start_ts := 2, tool_input := some "x", meta := {} })])]
        tool_next_seq := [(("r", "search"), 1)] }).1.pending_tool "r" = false := by
  have h := run_exit_clears_run_state "r" none none none 7
    { pending_llm := [("r", [((1, 0, 0),
        { start_ts := 0, messages := some "m", model := "gpt", meta := {} })])]
      llm_stack := [(("r", 1, 0), [(1, 0, 0)])]
      llm_next_seq := [(("r", 1, 0), 1)]
      pending_tool := [("r", [(("search", 0),
        { start_ts := 2, tool_input := some "x", meta := {} })])]
      tool_next_seq := [(("r", "search"), 1)] } (by decide) (by decide)
  exact ⟨h.1, h.2.1⟩

/-- C2: FIFO pairing of tool calls. With an active run, whenever the
pending-tool dict for the run has at least one entry whose tool name
equals the signal's, the after-tool handler pairs the signal with a
pending entry of that name whose sequence number is least among all
pending entries of that name, emits one completed event carrying that
entry's input, and removes exactly that entry. -/
theorem tool_fifo_pairing (rid : RunId) (t : Int) (c : ToolCtx) (s : CorrState)
    (h : ((dictGetD s.pending_tool rid []).map Prod.fst).filter
          (fun k => k.1 = toolNameOf c) ≠ []) :
    ∃ k entry,
      k.1 = toolNameOf c ∧
      dictGet (dictGetD s.pending_tool rid []) k = some entry ∧
      (∀ k' ∈ (dictGetD s.pending_tool rid []).map Prod.fst,
         k'.1 = toolNameOf c → k.2 ≤ k'.2) ∧
      after_tool_call (some rid) t c s =
        ({ s with pending_tool :=
              dictSet s.pending_tool rid (dictPop (dictGetD s.pending_tool rid []) k).2 },
         [Event.toolCall (toolNameOf c) entry.tool_input c.tool_result
            { entry.meta with crewai := some { (entry.meta.crewai.getD {}) with
                duration_ms := some (max 0 (t - entry.start_ts)) } }
            "ok" none]) := by
  rcases hmin : pyMinBy Prod.snd
      (((dictGetD s.pending_tool rid []).map Prod.fst).filter
        (fun k => k.1 = toolNameOf c)) with _ | mk
  · exfalso
    apply h
    rcases hl : ((dictGetD s.pending_tool rid []).map Prod.fst).filter
        (fun k => k.1 = toolNameOf c) with _ | ⟨a, as⟩
    · exact hl
    · rw [hl] at hmin
      simp [pyMinBy] at hmin
  · have hmem := pyMinBy_mem Prod.snd _ mk hmin
    have hname : mk.1 = toolNameOf c := by
      have := (List.mem_filter.mp hmem).2
      simpa using this
    have hkeys : mk ∈ (dictGetD s.pending_tool rid []).map Prod.fst :=
      (List.mem_filter.mp hmem).1
    obtain ⟨entry, hget⟩ := dictGet_isSome_of_mem_keys _ mk hkeys
    refine ⟨mk, entry, hname, hget, ?_, ?_⟩
    · intro k' hk' hk'name
      exact pyMinBy_le Prod.snd _ mk hmin k'
        (List.mem_filter.mpr ⟨hk', by simpa using hk'name⟩)
    · have hpop : (dictPop (dictGetD s.pending_tool rid []) mk).1 = some entry := by
        rw [dictPop_fst_eq_dictGet]; exact hget
      simp only [after_tool_call, hmin, hpop, hname]

/-- Witness for `tool_fifo_pairing`: two pending `search` calls with
sequence numbers 0 and 1; the after-signal pairs with sequence 0. -/
theorem tool_fifo_pairing_witness :
    ∃ (k : ToolKey) (entry : ToolEntry),
      k.1 = toolNameOf sampleToolCtx ∧
      dictGet (dictGetD sampleToolState.pending_tool "r" []) k = some entry ∧
      (∀ k' ∈ (dictGetD sampleToolState.pending_tool "r" []).map Prod.fst,
         k'.1 = toolNameOf sampleToolCtx → k.2 ≤ k'.2) ∧
      after_tool_call (some "r") 5 sampleToolCtx sampleToolState =
        ({ sampleToolState with pending_tool := dictSet sampleToolState.pending_tool "r" (dictPop (dictGetD sampleToolState.pending_tool "r" []) k).2 },
         [Event.toolCall (toolNameOf sampleToolCtx) entry.tool_input
            sampleToolCtx.tool_result
            { entry.meta with crewai := some { (entry.meta.crewai.getD {}) with
                duration_ms := some (max 0 (5 - entry.start_ts)) } }
            "ok" none]) :=
  tool_fifo_pairing "r" 5 sampleToolCtx sampleToolState (by decide)

/-- C6: gating. With no active run, each of the four hook handlers
returns without recording any event and leaves the correlator state
unchanged, for every context, time and state. -/
theorem gating_no_active_run (t : Int) (cl : LLMCtx) (ct : ToolCtx) (s : CorrState) :
    before_llm_call none t cl s = (s, []) ∧
    after_llm_call none t cl s = (s, []) ∧
    before_tool_call none t ct s = (s, []) ∧
    after_tool_call none t ct s = (s, []) := by
  refine ⟨rfl, rfl, rfl, rfl⟩

/-! ## Theorems about the HTTP status mapping -/

/-- C7: HTTP error mapping. For every storage state and `run_id`,
`GET /api/runs/{run_id}` and `GET /api/runs/{run_id}/events` respond
400 exactly when storage rejects the identifier as malformed, and 404
exactly when the identifier is well-formed but the run does not exist
(the storage contract is modelled from the spec, as `agentdbg.storage`
is not among the sources). -/
theorem http_status_mapping (st : Store) (rid : String) :
    (get_run_meta_status st rid = 400 ↔ st.validId rid = false) ∧
    (get_run_meta_status st rid = 404 ↔
      st.validId rid = true ∧ st.hasRun rid = false) ∧
    (get_run_events_status st rid = 400 ↔ st.validId rid = false) ∧
    (get_run_events_status st rid = 404 ↔
      st.validId rid = true ∧ st.hasRun rid = false) := by
  rcases hv : st.validId rid <;> rcases hr : st.hasRun rid <;>
    simp [get_run_meta_status, get_run_events_status, load_run_meta,
      load_events, hv, hr]

/-! ## Theorems about configuration loading -/

theorem le_applyYamlIntKey (cfg : YDict) (key : String) (m d : Int)
    (h : m ≤ d) : m ≤ applyYamlIntKey cfg key m d := by
  unfold applyYamlIntKey
  split
  · exact h
  · split
    · exact le_max_left _ _
    · exact h

theorem le_cfgIntKey (cfg : YDict) (key : String) (m d : Int)
    (h : m ≤ d) : m ≤ cfgIntKey cfg key m d := by
  unfold cfgIntKey
  split
  · exact h
  · exact le_applyYamlIntKey cfg key m d h

theorem le_envIntOverride (m d : Int) (c : Option String)
    (h : m ≤ d) : m ≤ envIntOverride m d c := by
  rcases c with _ | s
  · exact h
  · unfold envIntOverride
    rcases hp : pyStrToInt s with _ | n
    · simp [hp]; exact h
    · simp [hp]

/-- C8: configuration lower bounds. For every pair of parsed YAML
mappings and every environment: the loaded configuration satisfies
`max_field_bytes ≥ 100`, `loop_window ≥ 4` and `loop_repetitions ≥ 2`;
a numeric value supplied by a file or by an environment variable is
clamped up to the minimum (`max min v`); and an unparsable file or
environment value is ignored in favor of the previously effective
value (here: the defaults, which satisfy the bounds). -/
theorem config_lower_bounds :
    (∀ (home : String) (u p : YDict) (e : Env),
      100 ≤ (load_config home u p e).max_field_bytes ∧
      4 ≤ (load_config home u p e).loop_window ∧
      2 ≤ (load_config home u p e).loop_repetitions) ∧
    (∀ (home : String) (v : Int),
      (load_config home [] [("max_field_bytes", .yInt v)] {}).max_field_bytes
        = max 100 v ∧
      (load_config home [] [("loop_window", .yInt v)] {}).loop_window = max 4 v ∧
      (load_config home [] [("loop_repetitions", .yInt v)] {}).loop_repetitions
        = max 2 v) ∧
    (∀ (home s : String) (n : Int), pyStrToInt s = some n →
      (load_config home [] [] { max_field_bytes := some s }).max_field_bytes
        = max 100 n ∧
      (load_config home [] [] { loop_window := some s }).loop_window = max 4 n ∧
      (load_config home [] [] { loop_repetitions := some s }).loop_repetitions
        = max 2 n) ∧
    (∀ (home s : String), pyStrToInt s = none →
      load_config home [] [] { max_field_bytes := some s }
        = load_config home [] [] {} ∧
      load_config home [] [] { loop_window := some s }
        = load_config home [] [] {} ∧
      load_config home [] [] { loop_repetitions := some s }
        = load_config home [] [] {}) ∧
    (∀ (home : String) (v : YVal), pyInt v = none →
      load_config home [] [("max_field_bytes", v)] {}
        = load_config home [] [] {} ∧
      load_config home [] [("loop_window", v)] {}
        = load_config home [] [] {} ∧
      load_config home [] [("loop_repetitions", v)] {}
        = load_config home [] [] {}) := by
  refine ⟨?_, ?_, ?_, ?_, ?_⟩
  · intro home u p e
    refine ⟨?_, ?_, ?_⟩ <;>
      simp only [load_config] <;>
      exact le_envIntOverride _ _ _ (le_cfgIntKey _ _ _ _ (le_cfgIntKey _ _ _ _ (by decide)))
  · intro home v
    refine ⟨?_, ?_, ?_⟩ <;>
      simp [load_config, cfgIntKey, applyYamlIntKey, dictGet, envIntOverride,
        envRedact, envRedactKeys, envDataDir, pyInt, List.find?,
        MIN_MAX_FIELD_BYTES, MIN_LOOP_WINDOW, MIN_LOOP_REPETITIONS]
  · intro home s n hn
    refine ⟨?_, ?_, ?_⟩ <;>
      simp [load_config, cfgIntKey, envIntOverride, hn,
        MIN_MAX_FIELD_BYTES, MIN_LOOP_WINDOW, MIN_LOOP_REPETITIONS]
  · intro home s hn
    refine ⟨?_, ?_, ?_⟩ <;>
      simp [load_config, envIntOverride, hn]
  · intro home v hv
    refine ⟨?_, ?_, ?_⟩ <;>
      simp [load_config, cfgIntKey, cfgRedact, cfgRedactKeys, cfgDataDir,
        applyYamlIntKey, applyYamlRedact, applyYamlRedactKeys,
        applyYamlDataDir, dictGet, List.find?, hv]

/-- Witness for `config_lower_bounds`: concrete inputs — a file value
of 1 for `loop_window` is clamped to 4, the env string `"50"` clamps
`max_field_bytes` to 100, and the unparsable strings are ignored. -/
theorem config_lower_bounds_witness :
    ((load_config "/h" [] [("loop_window", .yInt 1)] {}).loop_window = max 4 1) ∧
    ((load_config "/h" [] [] { max_field_bytes := some "50" }).max_field_bytes
      = max 100 50) ∧
    (load_config "/h" [] [] { loop_window := some "oops" }
      = load_config "/h" [] [] {}) ∧
    (load_config "/h" [] [("loop_window", .yStr "oops")] {}
      = load_config "/h" [] [] {}) :=
  ⟨(config_lower_bounds.2.1 "/h" 1).2.1,
   (config_lower_bounds.2.2.1 "/h" "50" 50 (by decide)).1,
   (config_lower_bounds.2.2.2.1 "/h" "oops" (by decide)).2.1,
   (config_lower_bounds.2.2.2.2 "/h" (.yStr "oops") (by decide)).2.1⟩

/-- C9: configuration precedence. For each field, a value explicitly
set (and applicable: parsable for the numeric fields, non-blank for
`data_dir`) via its environment variable determines the loaded value
regardless of the config files — the result equals the one computed
with both files empty; and in the absence of an environment override, a
valid value in a config file overrides the built-in default. -/
theorem config_precedence :
    (∀ (home : String) (u p : YDict) (e : Env) (s : String),
      e.redact = some s →
      (load_config home u p e).redact = (load_config home [] [] e).redact) ∧
    (∀ (home : String) (u p : YDict) (e : Env) (s : String),
      e.redact_keys = some s →
      (load_config home u p e).redact_keys
        = (load_config home [] [] e).redact_keys) ∧
    (∀ (home : String) (u p : YDict) (e : Env) (s : String) (n : Int),
      e.max_field_bytes = some s → pyStrToInt s = some n →
      (load_config home u p e).max_field_bytes
        = (load_config home [] [] e).max_field_bytes) ∧
    (∀ (home : String) (u p : YDict) (e : Env) (s : String) (n : Int),
      e.loop_window = some s → pyStrToInt s = some n →
      (load_config home u p e).loop_window
        = (load_config home [] [] e).loop_window) ∧
    (∀ (home : String) (u p : YDict) (e : Env) (s : String) (n : Int),
      e.loop_repetitions = some s → pyStrToInt s = some n →
      (load_config home u p e).loop_repetitions
        = (load_config home [] [] e).loop_repetitions) ∧
    (∀ (home : String) (u p : YDict) (e : Env) (s : String),
      e.data_dir = some s → pyStrip s ≠ "" →
      (load_config home u p e).data_dir
        = (load_config home [] [] e).data_dir) ∧
    (∀ (home : String) (b : Bool),
      (load_config home [] [("redact", .yBool b)] {}).redact = b) ∧
    (∀ (home : String) (l : List String),
      (load_config home [] [("redact_keys", .yList (l.map .yStr))] {}).redact_keys
        = l) ∧
    (∀ (home : String) (v : Int),
      (load_config home [] [("max_field_bytes", .yInt v)] {}).max_field_bytes
        = max 100 v ∧
      (load_config home [] [("loop_window", .yInt v)] {}).loop_window = max 4 v ∧
      (load_config home [] [("loop_repetitions", .yInt v)] {}).loop_repetitions
        = max 2 v) ∧
    (∀ (home sd : String),
      (load_config home [] [("data_dir", .yStr sd)] {}).data_dir = sd) := by
  refine ⟨?_, ?_, ?_, ?_, ?_, ?_, ?_, ?_, ?_, ?_⟩
  · intro home u p e s hs
    simp [load_config, envRedact, hs]
  · intro home u p e s hs
    simp [load_config, envRedactKeys, hs]
  · intro home u p e s n hs hn
    simp [load_config, envIntOverride, hs, hn]
  · intro home u p e s n hs hn
    simp [load_config, envIntOverride, hs, hn]
  · intro home u p e s n hs hn
    simp [load_config, envIntOverride, hs, hn]
  · intro home u p e s hs hne
    simp [load_config, envDataDir, hs, hne]
  · intro home b
    simp [load_config, cfgRedact, applyYamlRedact, dictGet, List.find?,
      envRedact, pyTruthy]
  · intro home l
    simp only [load_config, cfgRedactKeys, applyYamlRedactKeys, envRedactKeys]
    have hl : yStrList (l.map .yStr) = some l := by
      induction l with
      | nil => rfl
      | cons a as ih => simp [yStrList, ih]
    simp [dictGet, List.find?, hl]
  · intro home v
    refine ⟨?_, ?_, ?_⟩ <;>
      simp [load_config, cfgIntKey, applyYamlIntKey, dictGet, List.find?,
        envIntOverride, pyInt, MIN_MAX_FIELD_BYTES, MIN_LOOP_WINDOW,
        MIN_LOOP_REPETITIONS]
  · intro home sd
    simp [load_config, cfgDataDir, applyYamlDataDir, dictGet, List.find?,
      envDataDir]

/-- Witness for `config_precedence`: the env string `"50"` determines
`max_field_bytes` even with a conflicting project file, and a file's
`loop_window` value overrides the default with no env set. -/
theorem config_precedence_witness :
    ((load_config "/h" [] [("max_field_bytes", .yInt 777)]
        { max_field_bytes := some "50" }).max_field_bytes
      = (load_config "/h" [] [] { max_field_bytes := some "50" }).max_field_bytes) ∧
    ((load_config "/h" [] [("loop_window", .yInt 7)] {}).loop_window = max 4 7) ∧
    ((load_config "/h" [] [] { data_dir := some "/d" }).data_dir
      = (load_config "/h" [("data_dir", .yStr "/zzz")] [] { data_dir := some "/d" }).data_dir) :=
  ⟨config_precedence.2.2.1 "/h" [] [("max_field_bytes", .yInt 777)]
      { max_field_bytes := some "50" } "50" 50 rfl (by decide),
   (config_precedence.2.2.2.2.2.2.2.2.1 "/h" 7).2.1,
   (config_precedence.2.2.2.2.2.1 "/h" [("data_dir", .yStr "/zzz")] []
      { data_dir := some "/d" } "/d" rfl (by decide)).symm⟩

end AgentDbg
